import Mathlib

/-!
Verification of the client-side generation bank / pre-fetch pipeline of the
illugen dashboard testing page.  The definitions below are a shallow
embedding of the bank logic of `TestingPage` (source file
`src/unnamed/part_005`): slot lifecycle, the generation-batch token check,
advancing to the next unfinished slot, the bank-apply (reconcile) effect,
batch creation, and the submit flow.  Network calls, timers and rendering
are modelled as explicit parameters / emitted effect lists; the single
UI-thread event loop is modelled by a step function over explicit state.
-/

namespace Illugen

/-- Slot lifecycle status, the string `status` field of a bank item. -/
inductive Status where
  | generating
  | ready
  | rating
  | rated
  | skipped
  | failed
deriving DecidableEq, Repr

/-- A prompt row fetched from `/api/prompts/batch`. -/
structure Prompt where
  id : Nat
  text : String
deriving DecidableEq, Repr

/-- One variation entry of a generation API response. -/
structure ApiVariation where
  audio_id : String
  audio_url : String
  original_audio_id : Option String
  original_audio_url : Option String
deriving DecidableEq, Repr

/-- The body of a successful `/api/test/send-prompt` response (`data`).
`Option` encodes JSON `null`/missing (falsy) fields. -/
structure ApiData where
  composition_plan : Option String
  llm_response : Option String
  audio_url : Option String
  audio_id : Option String
  variations : List ApiVariation
  bpm : Int
  bars : Int
  key : Option String
  duration_ms : Int
  api_time_ms : Int
  timing : Option String
deriving DecidableEq, Repr

/-- `API_BASE_URL` is computed from the browser environment in
`services/api` (host + port); its concrete value is irrelevant to the bank
logic, so it is fixed here. -/
def API_BASE_URL : String := "http://localhost:8000"

/-- Generation metadata kept with a result (`generationMeta`). -/
structure GenMeta where
  bpm : Int
  bars : Int
  key : Option String
  duration_ms : Int
  api_time_ms : Int
  timing : Option String
  round_trip_ms : Option Int
deriving DecidableEq, Repr

/-- A variation after URL resolution (as stored in a bank result). -/
structure Variation where
  audio_id : String
  audio_url : String
  original_audio_id : Option String
  original_audio_url : Option String
deriving DecidableEq, Repr

/-- A generated artifact attached to a slot: the output of `buildResult`. -/
structure GenResult where
  llmJson : Option String
  llmResponse : Option String
  audioUrl : String
  audioId : String
  audioFilePath : String
  variations : List Variation
  meta : GenMeta
deriving DecidableEq, Repr

/-- `buildResult(data)`: build a result object from an API response. -/
def buildResult (data : ApiData) : GenResult :=
  { llmJson := data.composition_plan
    llmResponse := data.llm_response
    audioUrl := match data.audio_url with
      | some u => API_BASE_URL ++ u
      | none => ""
    audioId := data.audio_id.getD ""
    audioFilePath := data.audio_url.getD ""
    variations := data.variations.map fun v =>
      { audio_id := v.audio_id
        audio_url := API_BASE_URL ++ v.audio_url
        original_audio_id := v.original_audio_id
        original_audio_url := v.original_audio_url.map fun u => API_BASE_URL ++ u }
    meta :=
      { bpm := data.bpm
        bars := data.bars
        key := data.key
        duration_ms := data.duration_ms
        api_time_ms := data.api_time_ms
        timing := data.timing
        round_trip_ms := none } }

/-- One slot of the bank: `{ prompt, result, status }`. -/
structure BankSlot where
  prompt : Prompt
  result : Option GenResult
  status : Status
deriving DecidableEq, Repr

/-- The `scores` state variable. -/
structure Scores where
  audio_quality_score : Option Int
  llm_accuracy_score : Option Int
deriving DecidableEq, Repr

/-- An entry of `noteAttachments` / of the `illugen_attachments` payload. -/
structure AttachItem where
  id : String
  type : String
  label : String
  serve_path : Option String
  url : String
deriving DecidableEq, Repr

/-- A variation reference inside the score payload's `audio_variations`. -/
structure VariationRef where
  audio_id : String
  original_audio_id : Option String
deriving DecidableEq, Repr

/-- The body posted to `/api/results/score` by `submitScoreAndNext`. -/
structure RatingPayload where
  llm_accuracy_score : Option Int
  audio_quality_score : Option Int
  generated_json : Option String
  llm_response : Option String
  audio_id : Option String
  audio_file_path : Option String
  audio_variations : Option (List VariationRef)
  notes : Option String
  notes_audio_path : Option String
  illugen_attachments : Option (List AttachItem)
  prompt_id : Option Nat
  free_text_prompt : Option String
  free_text_difficulty : Option Nat
  free_text_category : Option String
deriving DecidableEq, Repr

/-- The TestingPage state relevant to the bank pipeline: the bank and its
index (plus their refs, which the event loop keeps in sync), the batch
generation token, and the display / form state variables the bank code
reads or writes.  `lastAppliedBankIndex` is `-1` when nothing was applied
yet, as in the source ref. -/
structure PageState where
  bank : List BankSlot
  bankIndex : Nat
  lastAppliedBankIndex : Int
  batchGenId : Nat
  currentPrompt : Option Prompt
  llmJson : Option String
  llmResponse : Option String
  audioUrl : String
  audioId : String
  audioFilePath : String
  variations : List Variation
  generationMeta : Option GenMeta
  scores : Scores
  notes : String
  notesPanelOpen : Bool
  noteAudioFile : Option String
  noteAudioPath : String
  noteAttachments : List AttachItem
  freeTextMode : Bool
  freeText : String
  freeTextDifficulty : Option Nat
  autoPromptDifficulty : Option Nat
  difficultyError : Bool
  generationScoreError : Bool
  llmScoreError : Bool
  submitting : Bool
  loading : Bool
  statusMsg : String
deriving DecidableEq, Repr

/-- The status line `applyBankResult` builds from the generation metadata.
(The source formats `api_time_ms / 1000` with one decimal; the numeric
formatting is kept symbolic here.) -/
def generatedStatus (m : GenMeta) : String :=
  "Generated in " ++ toString m.api_time_ms ++ " ms | " ++
    toString m.duration_ms ++ "ms @ " ++ toString m.bpm ++ " BPM | " ++
    (m.key.getD "No key")

/-- `applyBankResult(result)`: apply a bank result to the UI display. -/
def applyBankResult (st : PageState) (result : GenResult) : PageState :=
  { st with
    llmJson := result.llmJson
    llmResponse := result.llmResponse
    audioUrl := result.audioUrl
    audioId := result.audioId
    audioFilePath := result.audioFilePath
    variations := result.variations
    generationMeta := some result.meta
    noteAttachments := []
    noteAudioFile := none
    noteAudioPath := ""
    statusMsg := generatedStatus result.meta }

/-- The success continuation of `firePregen`'s API call, after the token
check passed: copy the bank and, if the slot at `idx` exists and is still
`generating`, attach the built result and mark it `ready`. -/
def markSlotReady (bank : List BankSlot) (idx : Nat) (data : ApiData) :
    List BankSlot :=
  match bank[idx]? with
  | some s =>
      if s.status = Status.generating then
        bank.set idx { s with result := some (buildResult data), status := Status.ready }
      else bank
  | none => bank

/-- The failure continuation of `firePregen`'s API call, after the token
check passed: if the slot at `idx` exists and is still `generating`, mark
it `failed`. -/
def markSlotFailed (bank : List BankSlot) (idx : Nat) : List BankSlot :=
  match bank[idx]? with
  | some s =>
      if s.status = Status.generating then
        bank.set idx { s with status := Status.failed }
      else bank
  | none => bank

/-- Resolution of a pre-gen call dispatched by `firePregen` with token
`genId`, success case.  A response whose token differs from the current
`batchGenIdRef` is discarded. -/
def onPregenSuccess (st : PageState) (idx : Nat) (genId : Nat)
    (data : ApiData) : PageState :=
  if st.batchGenId ≠ genId then st
  else { st with bank := markSlotReady st.bank idx data }

/-- Resolution of a pre-gen call dispatched by `firePregen` with token
`genId`, error case.  Same token check as the success case. -/
def onPregenError (st : PageState) (idx : Nat) (genId : Nat) : PageState :=
  if st.batchGenId ≠ genId then st
  else { st with bank := markSlotFailed st.bank idx }

/-- A pre-generation request dispatched by `firePregen`: which prompt,
which slot index, and the batch token it was minted under. -/
structure PregenCall where
  prompt : Prompt
  idx : Nat
  genId : Nat
deriving DecidableEq, Repr

/-- Outcome of the `/api/prompts/batch` fetch inside `generateNewBatch`. -/
inductive FetchOutcome where
  | ok (prompts : List Prompt)
  | err (msg : String)
deriving DecidableEq, Repr

/-- The synchronous prefix of `generateNewBatch`: increment the batch
token (`++batchGenIdRef.current`) — any in-flight calls from previous
batches will be discarded — and set the loading status. -/
def beginNewBatch (st : PageState) : PageState :=
  { st with
    batchGenId := st.batchGenId + 1
    statusMsg := "Loading prompts and pre-generating loops..." }

/-- The continuation of `generateNewBatch` once the prompt fetch resolves;
`genId` is the token captured before the `await`.  An empty batch only
sets the status message and clears the current prompt; a non-empty batch
replaces the bank with all-`generating` slots, resets the index and the
form, and dispatches one pre-gen call per slot (all in parallel, no
concurrency limit). -/
def finishNewBatch (st : PageState) (genId : Nat) (fetch : FetchOutcome) :
    PageState × List PregenCall :=
  match fetch with
  | FetchOutcome.err m =>
      ({ st with statusMsg := "Error loading prompts: " ++ m }, [])
  | FetchOutcome.ok prompts =>
      if prompts.length = 0 then
        ({ st with statusMsg := "No prompts in the database."
                   currentPrompt := none }, [])
      else
        let newBank := prompts.map fun p =>
          { prompt := p, result := none, status := Status.generating }
        ({ st with
            bank := newBank
            bankIndex := 0
            lastAppliedBankIndex := -1
            currentPrompt := prompts[0]?
            llmJson := none
            llmResponse := none
            audioUrl := ""
            autoPromptDifficulty := none
            scores := { audio_quality_score := none, llm_accuracy_score := none }
            generationMeta := none
            variations := []
            notes := ""
            noteAudioFile := none
            noteAudioPath := ""
            noteAttachments := []
            notesPanelOpen := false },
         prompts.enum.map fun pi => { prompt := pi.2, idx := pi.1, genId := genId })

/-- `generateNewBatch()` with the fetch outcome supplied: token increment
followed by the fetch continuation. -/
def generateNewBatch (st : PageState) (fetch : FetchOutcome) :
    PageState × List PregenCall :=
  let st1 := beginNewBatch st
  finishNewBatch st1 st1.batchGenId fetch

/-- `findNextUnfinished(bankArr, afterIdx)`: first index strictly after
`afterIdx` whose slot is `generating` or `ready`, else wrap to the first
such index `≤ afterIdx`; `none` models the source's `-1`. -/
def unfinishedAt (bankArr : List BankSlot) (i : Nat) : Bool :=
  match bankArr[i]? with
  | some s => s.status = Status.generating || s.status = Status.ready
  | none => false

def findNextUnfinished (bankArr : List BankSlot) (afterIdx : Nat) :
    Option Nat :=
  match (List.range bankArr.length).find? fun i =>
      decide (afterIdx < i) && unfinishedAt bankArr i with
  | some i => some i
  | none =>
      (List.range bankArr.length).find? fun i =>
        decide (i ≤ afterIdx) && unfinishedAt bankArr i

/-- `advanceBank(markStatus)`: cancel any in-flight manual generation
(the abort ref is outside this model), clear `loading`, mark the current
slot with `markStatus`, then either move to the next unfinished slot
(clearing the form and display) or — when none remains — start
`generateNewBatch` (its synchronous token increment; the fetch resolution
is a separate event).  The returned flag records whether
`generateNewBatch` was invoked. -/
def advanceBank (st : PageState) (markStatus : Status) : PageState × Bool :=
  let st := { st with loading := false }
  match st.bank[st.bankIndex]? with
  | none => (st, false)
  | some cur =>
      let updated := st.bank.set st.bankIndex { cur with status := markStatus }
      match findNextUnfinished updated st.bankIndex with
      | some next =>
          ({ st with
              bank := updated
              bankIndex := next
              currentPrompt := (updated[next]?).map BankSlot.prompt
              autoPromptDifficulty := none
              scores := { audio_quality_score := none, llm_accuracy_score := none }
              generationMeta := none
              variations := []
              notes := ""
              noteAudioFile := none
              noteAudioPath := ""
              noteAttachments := []
              notesPanelOpen := false
              statusMsg := ""
              llmJson := none
              llmResponse := none
              audioUrl := "" }, false)
      | none => (beginNewBatch { st with bank := updated }, true)

/-- The predicate of the reconcile effect's `findIndex` scan: another
index (not the current one) whose slot is `ready`. -/
def readyAtOther (bank : List BankSlot) (cur : Nat) (i : Nat) : Bool :=
  decide (i ≠ cur) && (match bank[i]? with
    | some b => decide (b.status = Status.ready)
    | none => false)

/-- The bank apply effect (reconcile): watches `bank`/`bankIndex`.  If the
current item is `ready` with a result, apply it to the display and move
the slot to `rating`; if the current item is still `generating`, jump to
the first other `ready` item.  The early return fires when the current
index was already applied and a result is displayed (`llmJson` or
`audioUrl` truthy). -/
def reconcile (st : PageState) : PageState :=
  if st.freeTextMode then st
  else match st.bank[st.bankIndex]? with
  | none => st
  | some item =>
      if st.lastAppliedBankIndex = (st.bankIndex : Int) ∧
          (st.llmJson.isSome ∨ st.audioUrl ≠ "") then st
      else match item.status, item.result with
      | Status.ready, some r =>
          let st := applyBankResult st r
          { st with
              lastAppliedBankIndex := (st.bankIndex : Int)
              currentPrompt := some item.prompt
              bank := st.bank.set st.bankIndex { item with status := Status.rating } }
      | Status.generating, _ =>
          match (List.range st.bank.length).find? (readyAtOther st.bank st.bankIndex) with
          | some readyIdx => { st with bankIndex := readyIdx }
          | none => st
      | _, _ => st

/-- Observable side effects emitted by `submitScoreAndNext`, in program
order: the attachment upload, the `/api/results/score` POST and the
deferred `advanceBank` call. -/
inductive Effect where
  | uploadAttachment (file : String)
  | persistRating (payload : RatingPayload)
  | advance (mark : Status)
deriving DecidableEq, Repr

/-- `audioUrl?.split('/').pop() || null`. -/
def currentAudioIdOf (audioUrl : String) : Option String :=
  match (audioUrl.splitOn "/").getLast? with
  | some s => if s = "" then none else some s
  | none => none

/-- Build the `/api/results/score` payload of `submitScoreAndNext`. -/
def scorePayload (st : PageState) (currentDifficulty : Option Nat)
    (notesAudioPathValue : Option String)
    (attachmentsPayload : List AttachItem) : RatingPayload :=
  let currentAudioId := currentAudioIdOf st.audioUrl
  { llm_accuracy_score := st.scores.llm_accuracy_score
    audio_quality_score := st.scores.audio_quality_score
    generated_json := st.llmJson
    llm_response := st.llmResponse
    audio_id := currentAudioId
    audio_file_path := currentAudioId.map fun i => "audio_files/" ++ i ++ ".wav"
    audio_variations :=
      if st.variations.length > 0 then
        some (st.variations.map fun v =>
          { audio_id := v.audio_id, original_audio_id := v.original_audio_id })
      else
        match currentAudioId with
        | some a => some [{ audio_id := a, original_audio_id := none }]
        | none => none
    notes := if st.notes.trim = "" then none else some st.notes.trim
    notes_audio_path := notesAudioPathValue
    illugen_attachments :=
      if attachmentsPayload.length > 0 then some attachmentsPayload else none
    prompt_id := if st.freeTextMode then none else st.currentPrompt.map Prompt.id
    free_text_prompt := if st.freeTextMode then some st.freeText else none
    free_text_difficulty := currentDifficulty
    free_text_category := if st.freeTextMode then some "user-generated" else none }

/-- The tail of the submit flow once the attachment question is settled:
post the score payload; on success clear the attachment form and either
schedule `advanceBank('rated')` (auto-prompt mode, via a 1 s timeout) or
reset the free-text form; on error surface the message. -/
def finishSubmit (st : PageState) (currentDifficulty : Option Nat)
    (notesAudioPathValue : Option String)
    (attachmentsPayload : List AttachItem)
    (persist : Except String Unit) (effs : List Effect) :
    PageState × List Effect :=
  let payload := scorePayload st currentDifficulty notesAudioPathValue
    attachmentsPayload
  let effs := effs ++ [Effect.persistRating payload]
  match persist with
  | Except.error e =>
      ({ st with statusMsg := "Error: " ++ e, submitting := false }, effs)
  | Except.ok _ =>
      let st := { st with
        statusMsg := "Score saved!"
        noteAudioFile := none
        noteAudioPath := ""
        noteAttachments := [] }
      if st.freeTextMode then
        ({ st with
            llmJson := none
            llmResponse := none
            audioUrl := ""
            scores := { audio_quality_score := none, llm_accuracy_score := none }
            notes := ""
            notesPanelOpen := false
            freeText := ""
            freeTextDifficulty := none
            generationMeta := none
            variations := []
            submitting := false }, effs)
      else
        ({ st with submitting := false }, effs ++ [Effect.advance Status.rated])

/-- `submitScoreAndNext()`.  `now` stands for `Date.now()`; `upload` is
the outcome of `uploadNoteAttachment()` (the server may answer with a
`null` path); `persist` is the outcome of the score POST.  Validation:
prompt present (unless free-text mode), difficulty set, and both scores
non-null — a missing score flags the matching field error (the source
auto-clears the flags on a timer, which is outside this model) and aborts
without any network call. -/
def submitScoreAndNext (st : PageState) (now : Nat)
    (upload : Except String (Option String))
    (persist : Except String Unit) : PageState × List Effect :=
  if st.currentPrompt.isNone ∧ ¬ st.freeTextMode then
    ({ st with statusMsg := "Cannot submit score without prompt." }, [])
  else
    let currentDifficulty :=
      if st.freeTextMode then st.freeTextDifficulty else st.autoPromptDifficulty
    if currentDifficulty.isNone then
      ({ st with difficultyError := true }, [])
    else
      let genErr := st.scores.audio_quality_score.isNone
      let llmErr := st.scores.llm_accuracy_score.isNone
      if genErr || llmErr then
        ({ st with
            generationScoreError := genErr || st.generationScoreError
            llmScoreError := llmErr || st.llmScoreError }, [])
      else
        let st := { st with submitting := true, statusMsg := "Submitting score..." }
        match st.noteAudioFile with
        | some f =>
            match upload with
            | Except.error e =>
                ({ st with
                    statusMsg := "Error uploading note audio: " ++ e
                    submitting := false
                    loading := false }, [Effect.uploadAttachment f])
            | Except.ok uploadedPath =>
                let attachmentsPayload := st.noteAttachments ++
                  [{ id := "upload-" ++ toString now
                     type := "upload"
                     label := f
                     serve_path := uploadedPath
                     url := match uploadedPath with
                       | some p => API_BASE_URL ++ p
                       | none => "" }]
                finishSubmit st currentDifficulty uploadedPath
                  attachmentsPayload persist [Effect.uploadAttachment f]
        | none =>
            if st.noteAudioPath ≠ "" then
              let attachmentsPayload := st.noteAttachments ++
                [{ id := "upload-existing"
                   type := "upload"
                   label := "Note attachment"
                   serve_path := some st.noteAudioPath
                   url := API_BASE_URL ++ st.noteAudioPath }]
              finishSubmit st currentDifficulty (some st.noteAudioPath)
                attachmentsPayload persist []
            else
              finishSubmit st currentDifficulty none st.noteAttachments persist []

/-- Events of the single-threaded UI loop: resolution of a pre-gen call
(success or failure, tagged with the token it was dispatched under), a run
of the bank apply effect, a user advance (skip / after-submit), the
resolution of a `generateNewBatch` prompt fetch, and a submit. -/
inductive Event where
  | resolveOk (idx : Nat) (genId : Nat) (data : ApiData)
  | resolveErr (idx : Nat) (genId : Nat)
  | reconcileEv
  | advanceEv (mark : Status)
  | batchFetched (genId : Nat) (fetch : FetchOutcome)
  | submitEv (now : Nat) (upload : Except String (Option String))
      (persist : Except String Unit)
deriving Repr

/-- State transition of one event. -/
def step (st : PageState) (e : Event) : PageState :=
  match e with
  | Event.resolveOk idx genId data => onPregenSuccess st idx genId data
  | Event.resolveErr idx genId => onPregenError st idx genId
  | Event.reconcileEv => reconcile st
  | Event.advanceEv mark => (advanceBank st mark).1
  | Event.batchFetched genId fetch => (finishNewBatch st genId fetch).1
  | Event.submitEv now upload persist => (submitScoreAndNext st now upload persist).1

/-- Run a trace of events. -/
def runTrace (st : PageState) : List Event → PageState
  | [] => st
  | e :: tr => runTrace (step st e) tr

/-- Whether an event invokes `generateNewBatch` (only an advance can). -/
def stepTriggered (st : PageState) (e : Event) : Bool :=
  match e with
  | Event.advanceEv mark => (advanceBank st mark).2
  | _ => false

/-- Number of `generateNewBatch` invocations along a trace. -/
def triggerCount (st : PageState) : List Event → Nat
  | [] => 0
  | e :: tr => (if stepTriggered st e then 1 else 0) + triggerCount (step st e) tr

/-- Number of advance events in a trace. -/
def advCount : List Event → Nat
  | [] => 0
  | Event.advanceEv _ :: tr => advCount tr + 1
  | _ :: tr => advCount tr

/-- Terminal statuses: `rated`, `skipped`, `failed`. -/
def terminalStatus : Status → Bool
  | Status.rated => true
  | Status.skipped => true
  | Status.failed => true
  | _ => false

/-- Number of non-terminal slots of a bank. -/
def nontermCount (bank : List BankSlot) : Nat :=
  bank.countP fun s => ! terminalStatus s.status

/-- The events claim C6's scenario admits, for a bank minted under token
`t0`: successful resolutions of that bank's own calls, reconcile runs,
user advances that mark `rated` or `skipped`, and submits. -/
def c6Event (t0 : Nat) : Event → Bool
  | Event.resolveOk _ genId _ => genId == t0
  | Event.reconcileEv => true
  | Event.advanceEv mark => mark == Status.rated || mark == Status.skipped
  | Event.submitEv _ _ _ => true
  | _ => false

/-- The status-transition pair an operation performed at index `i`, if
the slot exists on both sides and its status changed. -/
def transOf (st st' : PageState) (i : Nat) : Option (Status × Status) :=
  match st.bank[i]?, st'.bank[i]? with
  | some a, some b => if a.status ≠ b.status then some (a.status, b.status) else none
  | _, _ => none

/-- The six transitions the specification's slot state machine allows. -/
def specAllowedTrans : Status → Status → Bool
  | Status.generating, Status.ready => true
  | Status.ready, Status.rating => true
  | Status.rating, Status.rated => true
  | Status.rating, Status.skipped => true
  | Status.generating, Status.failed => true
  | Status.ready, Status.skipped => true
  | _, _ => false

/-! Concrete fixtures used by witnesses and counterexamples. -/

/-- A blank TestingPage state (auto-prompt mode, nothing loaded). -/
def blankState : PageState :=
  { bank := []
    bankIndex := 0
    lastAppliedBankIndex := -1
    batchGenId := 0
    currentPrompt := none
    llmJson := none
    llmResponse := none
    audioUrl := ""
    audioId := ""
    audioFilePath := ""
    variations := []
    generationMeta := none
    scores := { audio_quality_score := none, llm_accuracy_score := none }
    notes := ""
    notesPanelOpen := false
    noteAudioFile := none
    noteAudioPath := ""
    noteAttachments := []
    freeTextMode := false
    freeText := ""
    freeTextDifficulty := none
    autoPromptDifficulty := none
    difficultyError := false
    generationScoreError := false
    llmScoreError := false
    submitting := false
    loading := false
    statusMsg := "" }

/-- Sample prompts. -/
def promptA : Prompt := { id := 1, text := "dark techno loop" }

def promptB : Prompt := { id := 2, text := "lofi hip hop loop" }

def promptC : Prompt := { id := 3, text := "uk drill loop" }

def promptD : Prompt := { id := 4, text := "house loop" }

def promptE : Prompt := { id := 5, text := "jazz loop" }

/-- A sample successful generation response. -/
def sampleData : ApiData :=
  { composition_plan := some "plan-A"
    llm_response := some "resp-A"
    audio_url := some "/api/audio/a"
    audio_id := some "a"
    variations := []
    bpm := 128
    bars := 4
    key := some "C minor"
    duration_ms := 7500
    api_time_ms := 3200
    timing := none }

/-- A second sample response. -/
def sampleData2 : ApiData :=
  { composition_plan := some "plan-B"
    llm_response := some "resp-B"
    audio_url := some "/api/audio/b"
    audio_id := some "b"
    variations := []
    bpm := 90
    bars := 8
    key := some "A minor"
    duration_ms := 21333
    api_time_ms := 4100
    timing := none }

/-- Build a slot with the given status and result. -/
def mkSlot (p : Prompt) (s : Status) (r : Option GenResult) : BankSlot :=
  { prompt := p, result := r, status := s }

def bankC4 : List BankSlot :=
  [ mkSlot promptA Status.rated none
  , mkSlot promptB Status.rated none
  , mkSlot promptC Status.rated none
  , mkSlot promptD Status.generating none
  , mkSlot promptE Status.ready (some (buildResult sampleData)) ]

def stC4 : PageState :=
  { blankState with
      bank := bankC4
      bankIndex := 2
      lastAppliedBankIndex := 2
      batchGenId := 1
      currentPrompt := some promptC
      llmJson := some "plan-old"
      audioUrl := "old" }

/-- The bank state of claim C5's scenario: a fresh three-prompt bank. -/
def stC5 : PageState :=
  (generateNewBatch blankState (FetchOutcome.ok [promptA, promptB, promptC])).1

/-- C5 after slot 1 resolved first and the apply effect settled. -/
def stC5a : PageState :=
  reconcile (reconcile (onPregenSuccess stC5 1 stC5.batchGenId sampleData2))

/-- The display data of the page: everything `applyBankResult` writes. -/
def displayOf (st : PageState) :
    Option String × Option String × String × String × String ×
      List Variation × Option GenMeta :=
  (st.llmJson, st.llmResponse, st.audioUrl, st.audioId, st.audioFilePath,
    st.variations, st.generationMeta)

/-- A freshly created single-slot bank (used by witnesses). -/
def stBank1 : PageState :=
  (generateNewBatch blankState (FetchOutcome.ok [promptA])).1

/-! ### Helper lemmas -/

theorem countP_set_balance {α : Type} (p : α → Bool) (l : List α) (i : Nat)
    (a b : α) (h : l[i]? = some b) :
    (l.set i a).countP p + (if p b then 1 else 0) =
      l.countP p + (if p a then 1 else 0) := by
  induction l generalizing i with
  | nil => simp at h
  | cons hd tl ih =>
      cases i with
      | zero =>
          simp only [List.getElem?_cons_zero, Option.some.injEq] at h
          subst h
          simp only [List.set_cons_zero, List.countP_cons]
          omega
      | succ n =>
          simp only [List.getElem?_cons_succ] at h
          simp only [List.set_cons_succ, List.countP_cons]
          have := ih n h
          omega

theorem countP_pos_of_getElem? {α : Type} {p : α → Bool} {l : List α}
    {i : Nat} {a : α} (h : l[i]? = some a) (hp : p a = true) :
    0 < l.countP p := by
  refine List.countP_pos.mpr ⟨a, ?_, hp⟩
  exact List.mem_iff_getElem?.mpr ⟨i, h⟩

/-- Replacing a non-terminal slot by a non-terminal one keeps the
non-terminal count. -/
theorem nontermCount_set_keep {bank : List BankSlot} {i : Nat}
    {a b : BankSlot} (h : bank[i]? = some b)
    (hb : terminalStatus b.status = false)
    (ha : terminalStatus a.status = false) :
    nontermCount (bank.set i a) = nontermCount bank := by
  have hbal := countP_set_balance
    (fun sl => ! terminalStatus sl.status) bank i a b h
  simp [hb, ha] at hbal
  unfold nontermCount
  omega

/-- Replacing a non-terminal slot by a terminal one drops the non-terminal
count by exactly one. -/
theorem nontermCount_set_toTerminal {bank : List BankSlot} {i : Nat}
    {a b : BankSlot} (h : bank[i]? = some b)
    (hb : terminalStatus b.status = false)
    (ha : terminalStatus a.status = true) :
    nontermCount (bank.set i a) + 1 = nontermCount bank := by
  have hbal := countP_set_balance
    (fun sl => ! terminalStatus sl.status) bank i a b h
  simp [hb, ha] at hbal
  unfold nontermCount
  omega

/-- `findNextUnfinished` returns `none` exactly when no slot is
`generating` or `ready`. -/
theorem findNextUnfinished_eq_none_iff (bank : List BankSlot) (a : Nat) :
    findNextUnfinished bank a = none ↔
      ∀ i, unfinishedAt bank i = false := by
  constructor
  · intro h i
    unfold findNextUnfinished at h
    rcases hf : (List.range bank.length).find? fun i =>
        decide (a < i) && unfinishedAt bank i with _ | j
    · rw [hf] at h
      simp only at h
      by_cases hi : i < bank.length
      · have h1 := List.find?_eq_none.mp hf i (List.mem_range.mpr hi)
        have h2 := List.find?_eq_none.mp h i (List.mem_range.mpr hi)
        by_cases hcmp : a < i
        · simpa [hcmp] using h1
        · have : i ≤ a := Nat.le_of_not_lt hcmp
          simpa [this] using h2
      · unfold unfinishedAt
        rw [List.getElem?_eq_none (Nat.le_of_not_lt hi)]
    · rw [hf] at h
      simp at h
  · intro h
    unfold findNextUnfinished
    have h1 : ((List.range bank.length).find? fun i =>
        decide (a < i) && unfinishedAt bank i) = none :=
      List.find?_eq_none.mpr fun i _ => by simp [h i]
    rw [h1]
    exact List.find?_eq_none.mpr fun i _ => by simp [h i]

/-- A found next-unfinished index points at a `generating` or `ready`
slot. -/
theorem findNextUnfinished_some {bank : List BankSlot} {a i : Nat}
    (h : findNextUnfinished bank a = some i) :
    ∃ s, bank[i]? = some s ∧
      (s.status = Status.generating ∨ s.status = Status.ready) := by
  have hunf : unfinishedAt bank i = true := by
    unfold findNextUnfinished at h
    rcases hf : (List.range bank.length).find? fun j =>
        decide (a < j) && unfinishedAt bank j with _ | j
    · rw [hf] at h
      simp only at h
      have h2 := List.find?_some h
      simp only [Bool.and_eq_true] at h2
      exact h2.2
    · rw [hf] at h
      simp only [Option.some.injEq] at h
      subst h
      have h2 := List.find?_some hf
      simp only [Bool.and_eq_true] at h2
      exact h2.2
  unfold unfinishedAt at hunf
  rcases hb : bank[i]? with _ | s
  · rw [hb] at hunf; simp at hunf
  · rw [hb] at hunf
    refine ⟨s, rfl, ?_⟩
    simpa using hunf

/-- The index found by the reconcile scan is a `ready` slot distinct from
the current index. -/
theorem readyAtOther_found {bank : List BankSlot} {cur i : Nat}
    (h : readyAtOther bank cur i = true) :
    i ≠ cur ∧ ∃ s, bank[i]? = some s ∧ s.status = Status.ready := by
  unfold readyAtOther at h
  simp only [Bool.and_eq_true] at h
  rcases h with ⟨h1, h2⟩
  refine ⟨of_decide_eq_true h1, ?_⟩
  rcases hb : bank[i]? with _ | s
  · rw [hb] at h2; simp at h2
  · rw [hb] at h2
    exact ⟨s, rfl, of_decide_eq_true h2⟩

theorem batchGenId_onPregenSuccess (st : PageState) (i g : Nat) (d : ApiData) :
    (onPregenSuccess st i g d).batchGenId = st.batchGenId := by
  unfold onPregenSuccess; split <;> rfl

theorem batchGenId_onPregenError (st : PageState) (i g : Nat) :
    (onPregenError st i g).batchGenId = st.batchGenId := by
  unfold onPregenError; split <;> rfl

theorem batchGenId_reconcile (st : PageState) :
    (reconcile st).batchGenId = st.batchGenId := by
  unfold reconcile applyBankResult
  repeat' split <;> try rfl

theorem batchGenId_advanceBank_le (st : PageState) (m : Status) :
    st.batchGenId ≤ (advanceBank st m).1.batchGenId := by
  simp only [advanceBank, beginNewBatch]
  split
  · exact Nat.le_refl _
  · split
    · exact Nat.le_refl _
    · exact Nat.le_succ _

theorem batchGenId_finishNewBatch (st : PageState) (g : Nat)
    (f : FetchOutcome) :
    (finishNewBatch st g f).1.batchGenId = st.batchGenId := by
  unfold finishNewBatch
  split
  · rfl
  · split
    · rfl
    · rfl

theorem submit_frame (st : PageState) (n : Nat)
    (u : Except String (Option String)) (p : Except String Unit) :
    (submitScoreAndNext st n u p).1.bank = st.bank ∧
      (submitScoreAndNext st n u p).1.bankIndex = st.bankIndex ∧
      (submitScoreAndNext st n u p).1.batchGenId = st.batchGenId := by
  simp only [submitScoreAndNext, finishSubmit]
  repeat' split
  all_goals exact ⟨rfl, rfl, rfl⟩

/-- The batch token never decreases under any event. -/
theorem batchGenId_step_le (st : PageState) (e : Event) :
    st.batchGenId ≤ (step st e).batchGenId := by
  cases e with
  | resolveOk idx genId data =>
      simp [step, batchGenId_onPregenSuccess]
  | resolveErr idx genId => simp [step, batchGenId_onPregenError]
  | reconcileEv => simp [step, batchGenId_reconcile]
  | advanceEv mark => exact batchGenId_advanceBank_le st mark
  | batchFetched genId fetch => simp [step, batchGenId_finishNewBatch]
  | submitEv now upload persist =>
      exact Nat.le_of_eq (submit_frame st now upload persist).2.2.symm

theorem batchGenId_runTrace_le (st : PageState) (tr : List Event) :
    st.batchGenId ≤ (runTrace st tr).batchGenId := by
  induction tr generalizing st with
  | nil => exact Nat.le_refl _
  | cons e tr ih =>
      exact Nat.le_trans (batchGenId_step_le st e) (ih (step st e))

/-- Branch analysis of `markSlotReady`. -/
theorem markSlotReady_cases (bank : List BankSlot) (i : Nat) (d : ApiData) :
    markSlotReady bank i d = bank ∨
      ∃ s, bank[i]? = some s ∧ s.status = Status.generating ∧
        markSlotReady bank i d =
          bank.set i { s with result := some (buildResult d), status := Status.ready } := by
  unfold markSlotReady
  rcases h : bank[i]? with _ | s
  · exact Or.inl rfl
  · dsimp only
    by_cases hg : s.status = Status.generating
    · exact Or.inr ⟨s, rfl, hg, by rw [if_pos hg]⟩
    · rw [if_neg hg]
      exact Or.inl rfl

/-- Branch analysis of `markSlotFailed`. -/
theorem markSlotFailed_cases (bank : List BankSlot) (i : Nat) :
    markSlotFailed bank i = bank ∨
      ∃ s, bank[i]? = some s ∧ s.status = Status.generating ∧
        markSlotFailed bank i = bank.set i { s with status := Status.failed } := by
  unfold markSlotFailed
  rcases h : bank[i]? with _ | s
  · exact Or.inl rfl
  · dsimp only
    by_cases hg : s.status = Status.generating
    · exact Or.inr ⟨s, rfl, hg, by rw [if_pos hg]⟩
    · rw [if_neg hg]
      exact Or.inl rfl

/-- Branch analysis of `onPregenSuccess`: stale token means untouched
state, current token applies `markSlotReady` and changes nothing else. -/
theorem onPregenSuccess_cases (st : PageState) (i g : Nat) (d : ApiData) :
    (st.batchGenId ≠ g ∧ onPregenSuccess st i g d = st) ∨
      (st.batchGenId = g ∧
        onPregenSuccess st i g d = { st with bank := markSlotReady st.bank i d }) := by
  unfold onPregenSuccess
  by_cases h : st.batchGenId ≠ g
  · exact Or.inl ⟨h, by rw [if_pos h]⟩
  · exact Or.inr ⟨not_ne_iff.mp h, by rw [if_neg h]⟩

/-- Branch analysis of `onPregenError`. -/
theorem onPregenError_cases (st : PageState) (i g : Nat) :
    (st.batchGenId ≠ g ∧ onPregenError st i g = st) ∨
      (st.batchGenId = g ∧
        onPregenError st i g = { st with bank := markSlotFailed st.bank i }) := by
  unfold onPregenError
  by_cases h : st.batchGenId ≠ g
  · exact Or.inl ⟨h, by rw [if_pos h]⟩
  · exact Or.inr ⟨not_ne_iff.mp h, by rw [if_neg h]⟩

/-- Branch analysis of `advanceBank`: either the current slot is missing
(nothing but `loading` changes), or the slot is marked and the index moves
to the found next-unfinished slot, or no unfinished slot remains and
`generateNewBatch` is started (token increment). -/
theorem advanceBank_spec (st : PageState) (m : Status) :
    (st.bank[st.bankIndex]? = none ∧
      advanceBank st m = ({ st with loading := false }, false)) ∨
    (∃ cur, st.bank[st.bankIndex]? = some cur ∧
      ((∃ next,
          findNextUnfinished (st.bank.set st.bankIndex { cur with status := m })
            st.bankIndex = some next ∧
          (advanceBank st m).1.bank =
            st.bank.set st.bankIndex { cur with status := m } ∧
          (advanceBank st m).1.bankIndex = next ∧
          (advanceBank st m).2 = false ∧
          (advanceBank st m).1.batchGenId = st.batchGenId) ∨
        (findNextUnfinished (st.bank.set st.bankIndex { cur with status := m })
            st.bankIndex = none ∧
          (advanceBank st m).1.bank =
            st.bank.set st.bankIndex { cur with status := m } ∧
          (advanceBank st m).1.bankIndex = st.bankIndex ∧
          (advanceBank st m).2 = true ∧
          (advanceBank st m).1.batchGenId = st.batchGenId + 1))) := by
  rcases hb : st.bank[st.bankIndex]? with _ | cur
  · refine Or.inl ⟨rfl, ?_⟩
    unfold advanceBank
    dsimp only
    rw [hb]
  · refine Or.inr ⟨cur, rfl, ?_⟩
    have hadv : advanceBank st m =
        (match findNextUnfinished (st.bank.set st.bankIndex { cur with status := m })
            st.bankIndex with
         | some next =>
            ({ st with
                bank := st.bank.set st.bankIndex { cur with status := m }
                bankIndex := next
                currentPrompt := Option.map BankSlot.prompt
                  (st.bank.set st.bankIndex { cur with status := m })[next]?
                autoPromptDifficulty := none
                scores := { audio_quality_score := none, llm_accuracy_score := none }
                generationMeta := none
                variations := []
                notes := ""
                noteAudioFile := none
                noteAudioPath := ""
                noteAttachments := []
                notesPanelOpen := false
                statusMsg := ""
                llmJson := none
                llmResponse := none
                audioUrl := ""
                loading := false }, false)
         | none =>
            (beginNewBatch { st with
                bank := st.bank.set st.bankIndex { cur with status := m }
                loading := false }, true)) := by
      unfold advanceBank
      dsimp only
      rw [hb]
    rcases hn : findNextUnfinished
        (st.bank.set st.bankIndex { cur with status := m }) st.bankIndex with _ | next
    · rw [hn] at hadv
      exact Or.inr ⟨rfl, by rw [hadv] <;> rfl, by rw [hadv] <;> rfl,
        by rw [hadv] <;> rfl, by rw [hadv] <;> rfl⟩
    · rw [hn] at hadv
      exact Or.inl ⟨next, rfl, by rw [hadv] <;> rfl, by rw [hadv] <;> rfl,
        by rw [hadv] <;> rfl, by rw [hadv] <;> rfl⟩

/-- Branch analysis of `reconcile`: it is the identity, or it applies the
current `ready` slot's result (slot moves to `rating`, index fixed), or it
jumps the index to another `ready` slot (bank untouched). -/
theorem reconcile_spec (st : PageState) :
    reconcile st = st ∨
    (∃ item r, st.bank[st.bankIndex]? = some item ∧
      item.status = Status.ready ∧ item.result = some r ∧
      (reconcile st).bank =
        st.bank.set st.bankIndex { item with status := Status.rating } ∧
      (reconcile st).bankIndex = st.bankIndex ∧
      (reconcile st).batchGenId = st.batchGenId) ∨
    (∃ item readyIdx, st.bank[st.bankIndex]? = some item ∧
      item.status = Status.generating ∧
      readyAtOther st.bank st.bankIndex readyIdx = true ∧
      (reconcile st).bank = st.bank ∧
      (reconcile st).bankIndex = readyIdx ∧
      (reconcile st).batchGenId = st.batchGenId) := by
  unfold reconcile
  cases hft : st.freeTextMode
  · simp only [Bool.false_eq_true, if_false]
    rcases hb : st.bank[st.bankIndex]? with _ | item
    · exact Or.inl rfl
    · dsimp only
      by_cases hg : st.lastAppliedBankIndex = (st.bankIndex : Int) ∧
          (st.llmJson.isSome ∨ st.audioUrl ≠ "")
      · rw [if_pos hg]
        exact Or.inl rfl
      · rw [if_neg hg]
        rcases hstat : item.status with _ | _ | _ | _ | _ | _ <;>
          rcases hres : item.result with _ | r
        case neg.ready.some =>
            refine Or.inr (Or.inl ⟨item, r, rfl, hstat, hres, ?_, ?_, ?_⟩) <;>
              simp [applyBankResult, hres]
        case neg.ready.none => exact Or.inl rfl
        case neg.generating.none =>
            rcases hf : (List.range st.bank.length).find?
                (readyAtOther st.bank st.bankIndex) with _ | readyIdx
            · exact Or.inl rfl
            · exact Or.inr (Or.inr ⟨item, readyIdx, rfl, hstat,
                List.find?_some hf, rfl, rfl, rfl⟩)
        case neg.generating.some =>
            rcases hf : (List.range st.bank.length).find?
                (readyAtOther st.bank st.bankIndex) with _ | readyIdx
            · exact Or.inl rfl
            · exact Or.inr (Or.inr ⟨item, readyIdx, rfl, hstat,
                List.find?_some hf, rfl, rfl, rfl⟩)
        all_goals exact Or.inl rfl
  · simp only [if_true]
    exact Or.inl trivial

theorem getElem?_set_cases {α : Type} {l : List α} {i j : Nat} {x b : α}
    (h : (l.set i x)[j]? = some b) :
    (j = i ∧ b = x) ∨ (j ≠ i ∧ l[j]? = some b) := by
  rw [List.getElem?_set] at h
  by_cases hij : i = j
  · subst hij
    rw [if_pos rfl] at h
    by_cases hi : i < l.length
    · rw [if_pos hi] at h
      cases h
      exact Or.inl ⟨rfl, rfl⟩
    · rw [if_neg hi] at h
      cases h
  · rw [if_neg hij] at h
    exact Or.inr ⟨fun e => hij e.symm, h⟩

/-! ### Claim theorems -/

/-- C1: a generation response (success or error) whose batch token differs
from the current Generation Batch Token never mutates the state; in
particular, after a new bank is created (B after A) and any further events
run, a late response carrying A's token leaves B's state — its slot list
included — unchanged. -/
theorem c1_stale_token_never_mutates (st : PageState) (idx g : Nat)
    (d : ApiData) (fetch : FetchOutcome) (tr : List Event)
    (h : g ≠ st.batchGenId) :
    (onPregenSuccess st idx g d = st ∧ onPregenError st idx g = st) ∧
    (onPregenSuccess (runTrace (generateNewBatch st fetch).1 tr) idx
        st.batchGenId d = runTrace (generateNewBatch st fetch).1 tr ∧
      onPregenError (runTrace (generateNewBatch st fetch).1 tr) idx
        st.batchGenId = runTrace (generateNewBatch st fetch).1 tr) := by
  have h1 : st.batchGenId ≠ g := fun e => h e.symm
  have hB : (generateNewBatch st fetch).1.batchGenId = st.batchGenId + 1 := by
    unfold generateNewBatch
    rw [batchGenId_finishNewBatch]
    rfl
  have hle := batchGenId_runTrace_le (generateNewBatch st fetch).1 tr
  have hne : (runTrace (generateNewBatch st fetch).1 tr).batchGenId ≠
      st.batchGenId := by omega
  refine ⟨⟨?_, ?_⟩, ?_, ?_⟩
  · unfold onPregenSuccess
    rw [if_pos h1]
  · unfold onPregenError
    rw [if_pos h1]
  · unfold onPregenSuccess
    rw [if_pos hne]
  · unfold onPregenError
    rw [if_pos hne]

/-- C1 witness: a concrete stale response (token 0, current token 1) on a
freshly created bank is a no-op. -/
theorem c1_stale_token_never_mutates_witness :
    (onPregenSuccess stBank1 0 0 sampleData = stBank1 ∧
      onPregenError stBank1 0 0 = stBank1) ∧
    (onPregenSuccess (runTrace (generateNewBatch stBank1 (FetchOutcome.ok [])).1 [])
        0 stBank1.batchGenId sampleData =
        runTrace (generateNewBatch stBank1 (FetchOutcome.ok [])).1 [] ∧
      onPregenError (runTrace (generateNewBatch stBank1 (FetchOutcome.ok [])).1 [])
        0 stBank1.batchGenId =
        runTrace (generateNewBatch stBank1 (FetchOutcome.ok [])).1 []) :=
  c1_stale_token_never_mutates stBank1 0 0 sampleData (FetchOutcome.ok []) []
    (by decide)

/-- C2: a slot's `result` is written at most once.  A duplicate resolution
of a slot already `ready`/`rating` (any token, the current one included)
leaves the bank unchanged; `reconcile`, `advanceBank` and error
resolutions never change any slot's `result`; and the only operation that
changes a `result` is a successful resolution moving a `generating` slot
to `ready` with the freshly built result attached. -/
theorem c2_result_written_at_most_once (st : PageState) (i g : Nat)
    (d : ApiData) (s : BankSlot) (hs : st.bank[i]? = some s)
    (hstat : s.status = Status.ready ∨ s.status = Status.rating) :
    ((onPregenSuccess st i g d).bank = st.bank ∧
      (onPregenError st i g).bank = st.bank) ∧
    (∀ (j : Nat) (a b : BankSlot), st.bank[j]? = some a →
      (reconcile st).bank[j]? = some b → b.result = a.result) ∧
    (∀ (m : Status) (j : Nat) (a b : BankSlot), st.bank[j]? = some a →
      ((advanceBank st m).1).bank[j]? = some b → b.result = a.result) ∧
    (∀ (i' g' : Nat) (a b : BankSlot), st.bank[i']? = some a →
      (onPregenSuccess st i' g' d).bank[i']? = some b → b.result ≠ a.result →
      a.status = Status.generating ∧ b.status = Status.ready ∧
        b.result = some (buildResult d)) ∧
    (∀ (i' g' : Nat) (a b : BankSlot), st.bank[i']? = some a →
      (onPregenError st i' g').bank[i']? = some b → b.result = a.result) := by
  have hnotgen : s.status ≠ Status.generating := by
    rcases hstat with h' | h' <;> (rw [h']; intro e; cases e)
  have hmark : markSlotReady st.bank i d = st.bank := by
    rcases markSlotReady_cases st.bank i d with he | ⟨s', hs', hgen, _⟩
    · exact he
    · rw [hs] at hs'
      cases hs'
      exact absurd hgen hnotgen
  have hmarkF : markSlotFailed st.bank i = st.bank := by
    rcases markSlotFailed_cases st.bank i with he | ⟨s', hs', hgen, _⟩
    · exact he
    · rw [hs] at hs'
      cases hs'
      exact absurd hgen hnotgen
  refine ⟨⟨?_, ?_⟩, ?_, ?_, ?_, ?_⟩
  · rcases onPregenSuccess_cases st i g d with ⟨_, he⟩ | ⟨_, he⟩
    · rw [he]
    · rw [he]
      exact hmark
  · rcases onPregenError_cases st i g with ⟨_, he⟩ | ⟨_, he⟩
    · rw [he]
    · rw [he]
      exact hmarkF
  · intro j a b ha hb
    rcases reconcile_spec st with he | ⟨item, r, hitem, _, _, hbank, _, _⟩ |
      ⟨item, ri, _, _, _, hbank, _, _⟩
    · rw [he, ha] at hb
      cases hb
      rfl
    · rw [hbank] at hb
      rcases getElem?_set_cases hb with ⟨hj, hbeq⟩ | ⟨_, hj⟩
      · subst hj
        rw [ha] at hitem
        cases hitem
        rw [hbeq]
      · rw [ha] at hj
        cases hj
        rfl
    · rw [hbank, ha] at hb
      cases hb
      rfl
  · intro m j a b ha hb
    rcases advanceBank_spec st m with ⟨_, he⟩ | ⟨cur, hcur, hrest⟩
    · rw [show (advanceBank st m).1.bank = st.bank by rw [he], ha] at hb
      cases hb
      rfl
    · have hbank : (advanceBank st m).1.bank =
          st.bank.set st.bankIndex { cur with status := m } := by
        rcases hrest with ⟨next, _, hbk, _⟩ | ⟨_, hbk, _⟩ <;> exact hbk
      rw [hbank] at hb
      rcases getElem?_set_cases hb with ⟨hj, hbeq⟩ | ⟨_, hj⟩
      · subst hj
        rw [ha] at hcur
        cases hcur
        rw [hbeq]
      · rw [ha] at hj
        cases hj
        rfl
  · intro i' g' a b ha hb hne
    rcases onPregenSuccess_cases st i' g' d with ⟨_, he⟩ | ⟨_, he⟩
    · rw [he, ha] at hb
      cases hb
      exact absurd rfl hne
    · rw [he] at hb
      rcases markSlotReady_cases st.bank i' d with hcase | ⟨s', hs', hgen, hset⟩
      · rw [show ({ st with bank := markSlotReady st.bank i' d } :
            PageState).bank = markSlotReady st.bank i' d from rfl, hcase, ha] at hb
        cases hb
        exact absurd rfl hne
      · rw [show ({ st with bank := markSlotReady st.bank i' d } :
            PageState).bank = markSlotReady st.bank i' d from rfl, hset] at hb
        rcases getElem?_set_cases hb with ⟨_, hbeq⟩ | ⟨hj, _⟩
        · rw [ha] at hs'
          cases hs'
          rw [hbeq]
          exact ⟨hgen, rfl, rfl⟩
        · exact absurd rfl hj
  · intro i' g' a b ha hb
    rcases onPregenError_cases st i' g' with ⟨_, he⟩ | ⟨_, he⟩
    · rw [he, ha] at hb
      cases hb
      rfl
    · rw [he] at hb
      rcases markSlotFailed_cases st.bank i' with hcase | ⟨s', hs', hgen, hset⟩
      · rw [show ({ st with bank := markSlotFailed st.bank i' } :
            PageState).bank = markSlotFailed st.bank i' from rfl, hcase, ha] at hb
        cases hb
        rfl
      · rw [show ({ st with bank := markSlotFailed st.bank i' } :
            PageState).bank = markSlotFailed st.bank i' from rfl, hset] at hb
        rcases getElem?_set_cases hb with ⟨_, hbeq⟩ | ⟨hj, _⟩
        · rw [ha] at hs'
          cases hs'
          rw [hbeq]
        · exact absurd rfl hj

/-- C2 witness: duplicating slot 1's resolution on the settled C5 state
(slot 1 is `rating` with its result attached) changes nothing. -/
theorem c2_result_written_at_most_once_witness :
    stC5a.bank[1]? =
      some (mkSlot promptB Status.rating (some (buildResult sampleData2))) ∧
    (onPregenSuccess stC5a 1 1 sampleData).bank = stC5a.bank :=
  ⟨by decide,
    (c2_result_written_at_most_once stC5a 1 1 sampleData
      (mkSlot promptB Status.rating (some (buildResult sampleData2)))
      (by decide) (Or.inr (by decide))).1.1⟩

/-- C7: `generateNewBatch` on a non-empty fetched batch builds one
`generating` slot per prompt with no result, mints a token one larger than
the previous one (and the token never decreases under any event, so the
new token exceeds every earlier one), sets the current index to 0, selects
the first prompt, and dispatches exactly one pre-gen call per slot — all
carrying the new token, produced before any response event is processed. -/
theorem c7_createBank_shape (st : PageState) (prompts : List Prompt)
    (h : prompts ≠ []) :
    ((generateNewBatch st (FetchOutcome.ok prompts)).1.bank =
        prompts.map (fun p =>
          { prompt := p, result := none, status := Status.generating }) ∧
      ∀ sl ∈ (generateNewBatch st (FetchOutcome.ok prompts)).1.bank,
        sl.status = Status.generating ∧ sl.result = none) ∧
    ((generateNewBatch st (FetchOutcome.ok prompts)).1.batchGenId =
        st.batchGenId + 1 ∧
      ∀ (st' : PageState) (e : Event),
        st'.batchGenId ≤ (step st' e).batchGenId) ∧
    (generateNewBatch st (FetchOutcome.ok prompts)).1.bankIndex = 0 ∧
    (generateNewBatch st (FetchOutcome.ok prompts)).1.currentPrompt =
      prompts[0]? ∧
    ((generateNewBatch st (FetchOutcome.ok prompts)).2.length =
        prompts.length ∧
      ∀ k : Nat, (generateNewBatch st (FetchOutcome.ok prompts)).2[k]? =
        (prompts[k]?).map fun p =>
          { prompt := p, idx := k, genId := st.batchGenId + 1 }) := by
  have hlen : ¬ prompts.length = 0 := by
    simpa [List.length_eq_zero] using h
  have hred : generateNewBatch st (FetchOutcome.ok prompts) =
      ({ beginNewBatch st with
          bank := prompts.map fun p =>
            { prompt := p, result := none, status := Status.generating }
          bankIndex := 0
          lastAppliedBankIndex := -1
          currentPrompt := prompts[0]?
          llmJson := none
          llmResponse := none
          audioUrl := ""
          autoPromptDifficulty := none
          scores := { audio_quality_score := none, llm_accuracy_score := none }
          generationMeta := none
          variations := []
          notes := ""
          noteAudioFile := none
          noteAudioPath := ""
          noteAttachments := []
          notesPanelOpen := false },
        prompts.enum.map fun pi =>
          { prompt := pi.2, idx := pi.1, genId := st.batchGenId + 1 }) := by
    unfold generateNewBatch finishNewBatch
    dsimp only
    rw [if_neg hlen]
    rfl
  rw [hred]
  refine ⟨⟨rfl, ?_⟩, ⟨rfl, batchGenId_step_le⟩, rfl, rfl, ?_, ?_⟩
  · intro sl hsl
    rcases List.mem_map.mp hsl with ⟨p, _, rfl⟩
    exact ⟨rfl, rfl⟩
  · simp [List.enum_length]
  · intro k
    simp only [List.getElem?_map, List.getElem?_enum]
    cases prompts[k]? <;> rfl

/-- C7 witness: a concrete two-prompt batch. -/
theorem c7_createBank_shape_witness :
    (generateNewBatch blankState (FetchOutcome.ok [promptA, promptB])).1.bank =
        [promptA, promptB].map (fun p =>
          { prompt := p, result := none, status := Status.generating }) ∧
    (generateNewBatch blankState (FetchOutcome.ok [promptA, promptB])).1.bankIndex
        = 0 ∧
    (generateNewBatch blankState
        (FetchOutcome.ok [promptA, promptB])).2.length = 2 :=
  have hmain := c7_createBank_shape blankState [promptA, promptB] (by decide)
  ⟨hmain.1.1, hmain.2.2.1, by rw [hmain.2.2.2.2.1]; rfl⟩

/-- C10: an empty prompt fetch inside `generateNewBatch` leaves the
previous bank's slot list and the current index untouched and only clears
the displayed current prompt — but the batch token was already incremented
before the fetch, so any in-flight response of the surviving bank (its
token is at most the old current token) is discarded: it can deliver
neither its result nor its failure. -/
theorem c10_empty_batch_strands_bank (st : PageState) :
    (generateNewBatch st (FetchOutcome.ok [])).1.bank = st.bank ∧
    (generateNewBatch st (FetchOutcome.ok [])).1.bankIndex = st.bankIndex ∧
    (generateNewBatch st (FetchOutcome.ok [])).1.currentPrompt = none ∧
    (generateNewBatch st (FetchOutcome.ok [])).1.batchGenId =
      st.batchGenId + 1 ∧
    (generateNewBatch st (FetchOutcome.ok [])).2 = [] ∧
    ∀ (i g : Nat) (d : ApiData), g ≤ st.batchGenId →
      onPregenSuccess (generateNewBatch st (FetchOutcome.ok [])).1 i g d =
        (generateNewBatch st (FetchOutcome.ok [])).1 ∧
      onPregenError (generateNewBatch st (FetchOutcome.ok [])).1 i g =
        (generateNewBatch st (FetchOutcome.ok [])).1 := by
  have hred : generateNewBatch st (FetchOutcome.ok []) =
      ({ beginNewBatch st with
          statusMsg := "No prompts in the database."
          currentPrompt := none }, []) := by
    unfold generateNewBatch finishNewBatch
    dsimp only
    rw [if_pos (show ([] : List Prompt).length = 0 from rfl)]
  rw [hred]
  refine ⟨rfl, rfl, rfl, rfl, rfl, ?_⟩
  intro i g d hg
  have hne : ({ beginNewBatch st with
      statusMsg := "No prompts in the database."
      currentPrompt := none } : PageState).batchGenId ≠ g := by
    show st.batchGenId + 1 ≠ g
    omega
  constructor
  · unfold onPregenSuccess
    rw [if_pos hne]
  · unfold onPregenError
    rw [if_pos hne]

/-- C10 witness: concrete empty fetch over the settled C5 state, with a
stale response for its still-generating slot 2. -/
theorem c10_empty_batch_strands_bank_witness :
    (generateNewBatch stC5a (FetchOutcome.ok [])).1.bank = stC5a.bank ∧
    onPregenSuccess (generateNewBatch stC5a (FetchOutcome.ok [])).1 2
        stC5a.batchGenId sampleData =
      (generateNewBatch stC5a (FetchOutcome.ok [])).1 :=
  have hmain := c10_empty_batch_strands_bank stC5a
  ⟨hmain.1,
    (hmain.2.2.2.2.2 2 stC5a.batchGenId sampleData (Nat.le_refl _)).1⟩

/-- C4: on the five-slot bank with slots 0-2 `rated`, slot 3 `generating`,
slot 4 `ready`, current index 2, advancing with `rated` lands the user on
index 4: `advanceBank` marks slot 2 and moves to the first unfinished slot
(index 3, still generating), and the bank-apply effect that runs on the
state change jumps to the ready slot 4, applies its result and settles
(a further effect run changes nothing).  No new batch is triggered. -/
theorem c4_advance_selects_index_4 :
    (advanceBank stC4 Status.rated).2 = false ∧
    (reconcile (reconcile (advanceBank stC4 Status.rated).1)).bankIndex = 4 ∧
    (reconcile (reconcile (advanceBank stC4 Status.rated).1)).currentPrompt =
      some promptE ∧
    ((reconcile (reconcile (advanceBank stC4 Status.rated).1)).bank[4]?).map
      BankSlot.status = some Status.rating ∧
    reconcile (reconcile (reconcile (advanceBank stC4 Status.rated).1)) =
      reconcile (reconcile (advanceBank stC4 Status.rated).1) := by
  refine ⟨by decide, by decide, by decide, by decide, by decide⟩

/-- C5: in a fresh three-prompt bank (current index 0 still generating),
slot 1's resolution arriving first makes the apply effect move the index
from 0 to 1 and apply slot 1's result (slot 1 becomes `rating`); when slot
0's result arrives afterwards, the then-current display, index and slot 1
are all left unchanged by that arrival and the following effect run. -/
theorem c5_out_of_order_completion :
    stC5.bankIndex = 0 ∧
    ((stC5.bank[0]?).map BankSlot.status = some Status.generating ∧
      stC5a.bankIndex = 1 ∧
      displayOf stC5a =
        (some "plan-B", some "resp-B", API_BASE_URL ++ "/api/audio/b", "b",
          "/api/audio/b", [],
          some (buildResult sampleData2).meta) ∧
      (stC5a.bank[1]?).map BankSlot.status = some Status.rating) ∧
    (reconcile (onPregenSuccess stC5a 0 stC5.batchGenId sampleData)).bankIndex
        = 1 ∧
    displayOf (reconcile (onPregenSuccess stC5a 0 stC5.batchGenId sampleData))
        = displayOf stC5a ∧
    (reconcile (onPregenSuccess stC5a 0 stC5.batchGenId sampleData)).bank[1]?
        = stC5a.bank[1]? := by
  refine ⟨by decide, ⟨by decide, by decide, by rfl, by decide⟩,
    by decide, by rfl, by decide⟩

/-- Destructure a recorded status transition. -/
theorem transOf_some {st st' : PageState} {j : Nat} {pr : Status × Status}
    (h : transOf st st' j = some pr) :
    ∃ a b, st.bank[j]? = some a ∧ st'.bank[j]? = some b ∧
      a.status ≠ b.status ∧ pr = (a.status, b.status) := by
  unfold transOf at h
  rcases ha : st.bank[j]? with _ | a <;> rw [ha] at h
  · simp at h
  · rcases hb : st'.bank[j]? with _ | b <;> rw [hb] at h
    · simp at h
    · dsimp only at h
      by_cases hne : a.status ≠ b.status
      · rw [if_pos hne] at h
        cases h
        exact ⟨a, b, rfl, rfl, hne, rfl⟩
      · rw [if_neg hne] at h
        simp at h

/-- C3 counterexample: the claim's transition list is violated.  On a
freshly created one-slot bank (slot 0 still `generating`), the user's
Skip button (`loadNextPrompt` → `advanceBank('skipped')`) performs the
transition `generating → skipped`, which is not among the six allowed
transitions. -/
theorem c3_counterexample_generating_skipped :
    transOf stBank1 (advanceBank stBank1 Status.skipped).1 0 =
      some (Status.generating, Status.skipped) ∧
    specAllowedTrans Status.generating Status.skipped = false := by
  exact ⟨by decide, by decide⟩

/-- C3 amended: the resolution handlers perform only
`generating → ready` (success) and `generating → failed` (error), the
apply effect performs only `ready → rating`, and `advanceBank` overwrites
only the current slot's status with its mark — `rated` or `skipped` at
every call site — regardless of the slot's prior status (so
`generating → skipped/rated` and `failed → skipped/rated` are also
reachable).  No operation ever sets a slot's status (back) to
`generating`. -/
theorem c3_amended_slot_transitions (st : PageState) (i g j : Nat)
    (d : ApiData) (m : Status) :
    (∀ pr, transOf st (onPregenSuccess st i g d) j = some pr →
      pr = (Status.generating, Status.ready)) ∧
    (∀ pr, transOf st (onPregenError st i g) j = some pr →
      pr = (Status.generating, Status.failed)) ∧
    (∀ pr, transOf st (reconcile st) j = some pr →
      pr = (Status.ready, Status.rating)) ∧
    (∀ pr, transOf st (advanceBank st m).1 j = some pr →
      j = st.bankIndex ∧ pr.2 = m) ∧
    ((m = Status.rated ∨ m = Status.skipped) →
      ∀ pr, transOf st (advanceBank st m).1 j = some pr →
        pr.2 ≠ Status.generating) := by
  have part4 : ∀ pr, transOf st (advanceBank st m).1 j = some pr →
      j = st.bankIndex ∧ pr.2 = m := by
    intro pr h
    rcases transOf_some h with ⟨a, b, ha, hb, hne, hpr⟩
    rcases advanceBank_spec st m with ⟨_, he⟩ | ⟨cur, hcur, hrest⟩
    · rw [show (advanceBank st m).1.bank = st.bank by rw [he], ha] at hb
      cases hb
      exact absurd rfl hne
    · have hbank : (advanceBank st m).1.bank =
          st.bank.set st.bankIndex { cur with status := m } := by
        rcases hrest with ⟨next, _, hbk, _⟩ | ⟨_, hbk, _⟩ <;> exact hbk
      rw [hbank] at hb
      rcases getElem?_set_cases hb with ⟨hj, hbeq⟩ | ⟨_, hj⟩
      · subst hj
        rw [hpr, hbeq]
        exact ⟨rfl, rfl⟩
      · rw [ha] at hj
        cases hj
        exact absurd rfl hne
  refine ⟨?_, ?_, ?_, part4, ?_⟩
  · intro pr h
    rcases transOf_some h with ⟨a, b, ha, hb, hne, hpr⟩
    rcases onPregenSuccess_cases st i g d with ⟨_, he⟩ | ⟨_, he⟩
    · rw [he, ha] at hb
      cases hb
      exact absurd rfl hne
    · rw [he] at hb
      rcases markSlotReady_cases st.bank i d with hcase | ⟨s', hs', hgen, hset⟩
      · rw [show ({ st with bank := markSlotReady st.bank i d } :
            PageState).bank = markSlotReady st.bank i d from rfl, hcase, ha] at hb
        cases hb
        exact absurd rfl hne
      · rw [show ({ st with bank := markSlotReady st.bank i d } :
            PageState).bank = markSlotReady st.bank i d from rfl, hset] at hb
        rcases getElem?_set_cases hb with ⟨hj, hbeq⟩ | ⟨_, hj⟩
        · subst hj
          rw [ha] at hs'
          cases hs'
          rw [hpr, hbeq, hgen]
        · rw [ha] at hj
          cases hj
          exact absurd rfl hne
  · intro pr h
    rcases transOf_some h with ⟨a, b, ha, hb, hne, hpr⟩
    rcases onPregenError_cases st i g with ⟨_, he⟩ | ⟨_, he⟩
    · rw [he, ha] at hb
      cases hb
      exact absurd rfl hne
    · rw [he] at hb
      rcases markSlotFailed_cases st.bank i with hcase | ⟨s', hs', hgen, hset⟩
      · rw [show ({ st with bank := markSlotFailed st.bank i } :
            PageState).bank = markSlotFailed st.bank i from rfl, hcase, ha] at hb
        cases hb
        exact absurd rfl hne
      · rw [show ({ st with bank := markSlotFailed st.bank i } :
            PageState).bank = markSlotFailed st.bank i from rfl, hset] at hb
        rcases getElem?_set_cases hb with ⟨hj, hbeq⟩ | ⟨_, hj⟩
        · subst hj
          rw [ha] at hs'
          cases hs'
          rw [hpr, hbeq, hgen]
        · rw [ha] at hj
          cases hj
          exact absurd rfl hne
  · intro pr h
    rcases transOf_some h with ⟨a, b, ha, hb, hne, hpr⟩
    rcases reconcile_spec st with he | ⟨item, r, hitem, hready, _, hbank, _, _⟩ |
      ⟨item, ri, _, _, _, hbank, _, _⟩
    · rw [he, ha] at hb
      cases hb
      exact absurd rfl hne
    · rw [hbank] at hb
      rcases getElem?_set_cases hb with ⟨hj, hbeq⟩ | ⟨_, hj⟩
      · subst hj
        rw [ha] at hitem
        cases hitem
        rw [hpr, hbeq, hready]
      · rw [ha] at hj
        cases hj
        exact absurd rfl hne
    · rw [hbank, ha] at hb
      cases hb
      exact absurd rfl hne
  · intro hm pr h
    have h4 := (part4 pr h).2
    rcases hm with hm | hm <;> (rw [h4, hm]; intro e; cases e)

/-- C3 amended witness: a successful resolution of a fresh bank's slot 0
records exactly the `generating → ready` transition. -/
theorem c3_amended_slot_transitions_witness :
    transOf stC5 (onPregenSuccess stC5 0 1 sampleData) 0 =
      some (Status.generating, Status.ready) ∧
    ((Status.generating, Status.ready) : Status × Status) =
      (Status.generating, Status.ready) :=
  ⟨by decide,
    (c3_amended_slot_transitions stC5 0 1 0 sampleData Status.rated).1
      (Status.generating, Status.ready) (by decide)⟩

/-- A missing score always aborts `submitScoreAndNext` before any side
effect: whatever branch the validation takes, no effect is emitted. -/
theorem submit_no_effects_of_missing_score (st : PageState) (now : Nat)
    (u : Except String (Option String)) (p : Except String Unit)
    (hmiss : (st.scores.audio_quality_score.isNone ||
      st.scores.llm_accuracy_score.isNone) = true) :
    (submitScoreAndNext st now u p).2 = [] := by
  unfold submitScoreAndNext
  split
  · rfl
  · dsimp only
    split
    · split
      · rfl
      · dsimp only
    · split
      · rfl
      · dsimp only

/-- C8: submitting with a `null` quality score (resp. accuracy score)
flags the matching field error, emits no effect at all — in particular the
persistence collaborator is not called and `advanceBank` is not invoked,
so bank, current index and the current slot's status are unchanged; and a
persistence call can only ever be emitted when both scores are non-null. -/
theorem c8_null_score_rejected_locally (st : PageState) (now : Nat)
    (u : Except String (Option String)) (p : Except String Unit)
    (hprompt : st.currentPrompt.isSome = true ∨ st.freeTextMode = true)
    (hdiff : (if st.freeTextMode then st.freeTextDifficulty
      else st.autoPromptDifficulty).isSome = true) :
    (st.scores.audio_quality_score = none →
      (submitScoreAndNext st now u p).1.generationScoreError = true ∧
      (submitScoreAndNext st now u p).2 = [] ∧
      (submitScoreAndNext st now u p).1.bank = st.bank ∧
      (submitScoreAndNext st now u p).1.bankIndex = st.bankIndex) ∧
    (st.scores.llm_accuracy_score = none →
      (submitScoreAndNext st now u p).1.llmScoreError = true ∧
      (submitScoreAndNext st now u p).2 = [] ∧
      (submitScoreAndNext st now u p).1.bank = st.bank ∧
      (submitScoreAndNext st now u p).1.bankIndex = st.bankIndex) ∧
    (∀ pay : RatingPayload,
      Effect.persistRating pay ∈ (submitScoreAndNext st now u p).2 →
      st.scores.audio_quality_score.isSome = true ∧
        st.scores.llm_accuracy_score.isSome = true) := by
  have hg1 : ¬ (st.currentPrompt.isNone = true ∧ ¬ st.freeTextMode = true) := by
    rintro ⟨hn, hf⟩
    rcases hprompt with h | h
    · rw [Option.isNone_iff_eq_none] at hn
      rw [hn] at h
      cases h
    · exact hf h
  have hg2 : ¬ ((if st.freeTextMode then st.freeTextDifficulty
      else st.autoPromptDifficulty).isNone = true) := by
    intro hn
    rw [Option.isNone_iff_eq_none] at hn
    rw [hn] at hdiff
    cases hdiff
  have hred : ∀ hmiss : (st.scores.audio_quality_score.isNone ||
        st.scores.llm_accuracy_score.isNone) = true,
      submitScoreAndNext st now u p =
        ({ st with
            generationScoreError := st.scores.audio_quality_score.isNone ||
              st.generationScoreError
            llmScoreError := st.scores.llm_accuracy_score.isNone ||
              st.llmScoreError }, []) := by
    intro hmiss
    unfold submitScoreAndNext
    rw [if_neg hg1]
    dsimp only
    rw [if_neg hg2, if_pos hmiss]
  refine ⟨?_, ?_, ?_⟩
  · intro hq
    have hmiss : (st.scores.audio_quality_score.isNone ||
        st.scores.llm_accuracy_score.isNone) = true := by
      rw [hq]
      rfl
    rw [hred hmiss]
    refine ⟨?_, rfl, rfl, rfl⟩
    show (st.scores.audio_quality_score.isNone || st.generationScoreError) = true
    rw [hq]
    rfl
  · intro ha
    have hmiss : (st.scores.audio_quality_score.isNone ||
        st.scores.llm_accuracy_score.isNone) = true := by
      rw [ha]
      simp
    rw [hred hmiss]
    refine ⟨?_, rfl, rfl, rfl⟩
    show (st.scores.llm_accuracy_score.isNone || st.llmScoreError) = true
    rw [ha]
    rfl
  · intro pay hmem
    by_cases hq : st.scores.audio_quality_score.isSome = true
    · by_cases ha : st.scores.llm_accuracy_score.isSome = true
      · exact ⟨hq, ha⟩
      · exfalso
        have hmiss : (st.scores.audio_quality_score.isNone ||
            st.scores.llm_accuracy_score.isNone) = true := by
          rcases ho : st.scores.llm_accuracy_score with _ | v
          · simp
          · rw [ho] at ha
            exact absurd rfl ha
        rw [submit_no_effects_of_missing_score st now u p hmiss] at hmem
        cases hmem
    · exfalso
      have hmiss : (st.scores.audio_quality_score.isNone ||
          st.scores.llm_accuracy_score.isNone) = true := by
        rcases ho : st.scores.audio_quality_score with _ | v
        · simp
        · rw [ho] at hq
          exact absurd rfl hq
      rw [submit_no_effects_of_missing_score st now u p hmiss] at hmem
      cases hmem

/-- C8 witness: on the settled C5 state (both scores still `null`,
difficulty set by hand), submit flags the quality-score error and emits
nothing. -/
theorem c8_null_score_rejected_locally_witness :
    (submitScoreAndNext { stC5a with autoPromptDifficulty := some 3 } 0
        (Except.ok none) (Except.ok ())).1.generationScoreError = true ∧
    (submitScoreAndNext { stC5a with autoPromptDifficulty := some 3 } 0
        (Except.ok none) (Except.ok ())).2 = [] :=
  have hmain := c8_null_score_rejected_locally
    { stC5a with autoPromptDifficulty := some 3 } 0
    (Except.ok none) (Except.ok ()) (Or.inl (by decide)) (by decide)
  ⟨(hmain.1 (by decide)).1, (hmain.1 (by decide)).2.1⟩

/-- C9: with a pending attachment (auto-prompt mode, validation passing),
the attachment upload strictly precedes the rating persist: on upload
success the emitted effect list is upload, then the persist whose record's
`notes_audio_path` is exactly the uploaded storage path, then the deferred
advance; on upload failure the flow aborts — only the upload attempt is
emitted (no persist, no advance), and bank and current index are
untouched, so a slot in `rating` status stays in `rating`. -/
theorem c9_upload_before_persist_and_abort (st : PageState) (now : Nat)
    (f : String) (pr : Prompt) (dv : Nat) (q a : Int)
    (hmode : st.freeTextMode = false)
    (hprompt : st.currentPrompt = some pr)
    (hdiff : st.autoPromptDifficulty = some dv)
    (hq : st.scores.audio_quality_score = some q)
    (ha : st.scores.llm_accuracy_score = some a)
    (hfile : st.noteAudioFile = some f) :
    (∀ e : String,
      (submitScoreAndNext st now (Except.error e) (Except.ok ())).2 =
        [Effect.uploadAttachment f] ∧
      (submitScoreAndNext st now (Except.error e) (Except.ok ())).1.bank =
        st.bank ∧
      (submitScoreAndNext st now (Except.error e) (Except.ok ())).1.bankIndex =
        st.bankIndex ∧
      ∀ s : BankSlot, st.bank[st.bankIndex]? = some s →
        s.status = Status.rating →
        ((submitScoreAndNext st now (Except.error e)
          (Except.ok ())).1.bank[st.bankIndex]?).map BankSlot.status =
          some Status.rating) ∧
    (∀ path : Option String, ∃ pay : RatingPayload,
      (submitScoreAndNext st now (Except.ok path) (Except.ok ())).2 =
        [Effect.uploadAttachment f, Effect.persistRating pay,
          Effect.advance Status.rated] ∧
      pay.notes_audio_path = path) := by
  have hg1 : ¬ (st.currentPrompt.isNone = true ∧ ¬ st.freeTextMode = true) := by
    rintro ⟨hn, _⟩
    rw [Option.isNone_iff_eq_none, hprompt] at hn
    cases hn
  have hg2 : ¬ ((if st.freeTextMode then st.freeTextDifficulty
      else st.autoPromptDifficulty).isNone = true) := by
    rw [hmode]
    intro hn
    rw [if_neg (by simp), Option.isNone_iff_eq_none, hdiff] at hn
    cases hn
  have hscores : (st.scores.audio_quality_score.isNone ||
      st.scores.llm_accuracy_score.isNone) = false := by
    rw [hq, ha]
    rfl
  have hred : ∀ (u : Except String (Option String)) (p : Except String Unit),
      submitScoreAndNext st now u p =
        (match u with
         | Except.error e =>
            ({ st with
                submitting := false
                loading := false
                statusMsg := "Error uploading note audio: " ++ e },
              [Effect.uploadAttachment f])
         | Except.ok uploadedPath =>
            finishSubmit
              { st with
                  submitting := true
                  statusMsg := "Submitting score..." }
              (if st.freeTextMode then st.freeTextDifficulty
                else st.autoPromptDifficulty)
              uploadedPath
              (st.noteAttachments ++
                [{ id := "upload-" ++ toString now
                   type := "upload"
                   label := f
                   serve_path := uploadedPath
                   url := match uploadedPath with
                     | some p' => API_BASE_URL ++ p'
                     | none => "" }])
              p [Effect.uploadAttachment f]) := by
    intro u p
    unfold submitScoreAndNext
    rw [if_neg hg1]
    dsimp only
    rw [if_neg hg2, if_neg (by rw [hscores]; intro e; cases e)]
    rw [show ({ st with
        submitting := true
        statusMsg := "Submitting score..." } : PageState).noteAudioFile =
      st.noteAudioFile from rfl, hfile]
  constructor
  · intro e
    rw [hred (Except.error e) (Except.ok ())]
    refine ⟨rfl, rfl, rfl, ?_⟩
    intro s hs hrating
    rw [show ({ st with
        submitting := false
        loading := false
        statusMsg := "Error uploading note audio: " ++ e } :
      PageState).bank = st.bank from rfl, hs]
    simp [hrating]
  · intro path
    rw [hred (Except.ok path) (Except.ok ())]
    unfold finishSubmit
    dsimp only
    rw [hmode]
    exact ⟨_, rfl, rfl⟩

/-- C9 witness: concrete submit with a pending attachment on the settled
C5 state; the success case emits upload, persist, advance in order. -/
theorem c9_upload_before_persist_and_abort_witness :
    (submitScoreAndNext
        { stC5a with
            autoPromptDifficulty := some 3
            scores := { audio_quality_score := some 8, llm_accuracy_score := some 7 }
            noteAudioFile := some "note.wav" } 0
        (Except.error "disk full") (Except.ok ())).2 =
      [Effect.uploadAttachment "note.wav"] :=
  (c9_upload_before_persist_and_abort
    { stC5a with
        autoPromptDifficulty := some 3
        scores := { audio_quality_score := some 8, llm_accuracy_score := some 7 }
        noteAudioFile := some "note.wav" } 0 "note.wav" promptB 3 8 7
    (by decide) (by decide) (by decide) (by decide) (by decide) (by decide)).1
    "disk full" |>.1

/-! ### Claim C6: exactly one replacement bank -/

/-- Invariant of the C6 scenario: the current index is in range and points
at a non-terminal slot, any `rating` slot is the current one, and the
batch token is still the one the bank was minted under. -/
structure C6Inv (t0 : Nat) (st : PageState) : Prop where
  idxLt : st.bankIndex < st.bank.length
  curNonterm : ∀ s, st.bank[st.bankIndex]? = some s →
    terminalStatus s.status = false
  ratingCur : ∀ i s, st.bank[i]? = some s → s.status = Status.rating →
    i = st.bankIndex
  genId : st.batchGenId = t0

theorem C6Inv.congr {t0 : Nat} {st st' : PageState}
    (hbank : st'.bank = st.bank) (hidx : st'.bankIndex = st.bankIndex)
    (hgen : st'.batchGenId = st.batchGenId) (h : C6Inv t0 st) :
    C6Inv t0 st' := by
  refine ⟨?_, ?_, ?_, ?_⟩
  · rw [hbank, hidx]
    exact h.idxLt
  · rw [hbank, hidx]
    exact h.curNonterm
  · rw [hbank, hidx]
    exact h.ratingCur
  · rw [hgen]
    exact h.genId

theorem C6Inv.nonterm_pos {t0 : Nat} {st : PageState} (h : C6Inv t0 st) :
    1 ≤ nontermCount st.bank := by
  obtain ⟨s, hs⟩ : ∃ s, st.bank[st.bankIndex]? = some s := by
    rcases hx : st.bank[st.bankIndex]? with _ | s
    · exfalso
      rw [List.getElem?_eq_none_iff] at hx
      have := h.idxLt
      omega
    · exact ⟨s, rfl⟩
  have hp : (! terminalStatus s.status) = true := by
    rw [h.curNonterm s hs]
    rfl
  exact countP_pos_of_getElem? hs hp

/-- A successful resolution with the current token preserves the C6
invariant and the non-terminal count. -/
theorem c6_step_resolveOk (t0 : Nat) (st : PageState) (i : Nat) (d : ApiData)
    (hInv : C6Inv t0 st) :
    C6Inv t0 (onPregenSuccess st i t0 d) ∧
      nontermCount (onPregenSuccess st i t0 d).bank = nontermCount st.bank := by
  rcases onPregenSuccess_cases st i t0 d with ⟨_, he⟩ | ⟨_, he⟩
  · rw [he]
    exact ⟨hInv, rfl⟩
  · have hbank : (onPregenSuccess st i t0 d).bank = markSlotReady st.bank i d := by
      rw [he]
    have hidx : (onPregenSuccess st i t0 d).bankIndex = st.bankIndex := by
      rw [he]
    have hgen : (onPregenSuccess st i t0 d).batchGenId = st.batchGenId := by
      rw [he]
    rcases markSlotReady_cases st.bank i d with hcase | ⟨s', hs', hg, hset⟩
    · rw [hcase] at hbank
      exact ⟨C6Inv.congr hbank hidx hgen hInv, by rw [hbank]⟩
    · rw [hset] at hbank
      have hcount : nontermCount (onPregenSuccess st i t0 d).bank =
          nontermCount st.bank := by
        rw [hbank]
        exact nontermCount_set_keep hs' (by rw [hg]; rfl) (by rfl)
      refine ⟨⟨?_, ?_, ?_, by rw [hgen]; exact hInv.genId⟩, hcount⟩
      · rw [hbank, hidx, List.length_set]
        exact hInv.idxLt
      · intro s hs
        rw [hbank, hidx] at hs
        rcases getElem?_set_cases hs with ⟨hj, hbeq⟩ | ⟨_, hj⟩
        · rw [hbeq]
          rfl
        · exact hInv.curNonterm s hj
      · intro j s hs hrating
        rw [hbank] at hs
        rw [hidx]
        rcases getElem?_set_cases hs with ⟨hj, hbeq⟩ | ⟨_, hj⟩
        · rw [hbeq] at hrating
          cases hrating
        · exact hInv.ratingCur j s hj hrating

/-- The apply effect preserves the C6 invariant and the non-terminal
count. -/
theorem c6_step_reconcile (t0 : Nat) (st : PageState) (hInv : C6Inv t0 st) :
    C6Inv t0 (reconcile st) ∧
      nontermCount (reconcile st).bank = nontermCount st.bank := by
  rcases reconcile_spec st with he |
    ⟨item, r, hitem, hready, _, hbank, hidx, hgen⟩ |
    ⟨item, readyIdx, hitem, hgenst, hother, hbank, hidx, hgen⟩
  · rw [he]
    exact ⟨hInv, rfl⟩
  · have hcount : nontermCount (reconcile st).bank = nontermCount st.bank := by
      rw [hbank]
      exact nontermCount_set_keep hitem (by rw [hready]; rfl) (by rfl)
    refine ⟨⟨?_, ?_, ?_, by rw [hgen]; exact hInv.genId⟩, hcount⟩
    · rw [hbank, hidx, List.length_set]
      exact hInv.idxLt
    · intro s hs
      rw [hbank, hidx] at hs
      rcases getElem?_set_cases hs with ⟨_, hbeq⟩ | ⟨hj, _⟩
      · rw [hbeq]
        rfl
      · exact absurd rfl hj
    · intro j s hs _
      rw [hbank] at hs
      rw [hidx]
      rcases getElem?_set_cases hs with ⟨hj, _⟩ | ⟨hj, hj'⟩
      · exact hj
      · rename_i hrating
        exact hInv.ratingCur j s hj' hrating
  · rcases readyAtOther_found hother with ⟨hne, s, hs, hready⟩
    refine ⟨⟨?_, ?_, ?_, by rw [hgen]; exact hInv.genId⟩, by rw [hbank]⟩
    · rw [hbank, hidx]
      exact (List.getElem?_eq_some_iff.mp hs).1
    · intro s' hs'
      rw [hbank, hidx, hs] at hs'
      cases hs'
      rw [hready]
      rfl
    · intro j s' hs' hrating
      exfalso
      rw [hbank] at hs'
      have hj := hInv.ratingCur j s' hs' hrating
      subst hj
      rw [hitem] at hs'
      cases hs'
      rw [hgenst] at hrating
      cases hrating

/-- A submit preserves the C6 invariant and the non-terminal count. -/
theorem c6_step_submit (t0 : Nat) (st : PageState) (now : Nat)
    (u : Except String (Option String)) (p : Except String Unit)
    (hInv : C6Inv t0 st) :
    C6Inv t0 (submitScoreAndNext st now u p).1 ∧
      nontermCount (submitScoreAndNext st now u p).1.bank =
        nontermCount st.bank := by
  rcases submit_frame st now u p with ⟨hbank, hidx, hgen⟩
  exact ⟨C6Inv.congr hbank hidx hgen hInv, by rw [hbank]⟩

/-- An advance under the C6 invariant: it triggers `generateNewBatch`
exactly when the marked slot was the last non-terminal one; otherwise it
re-establishes the invariant with one fewer non-terminal slot. -/
theorem c6_step_advance (t0 : Nat) (st : PageState) (m : Status)
    (hInv : C6Inv t0 st) (hm : m = Status.rated ∨ m = Status.skipped) :
    ((advanceBank st m).2 = true ∧ nontermCount st.bank = 1) ∨
    ((advanceBank st m).2 = false ∧ 2 ≤ nontermCount st.bank ∧
      C6Inv t0 (advanceBank st m).1 ∧
      nontermCount (advanceBank st m).1.bank = nontermCount st.bank - 1) := by
  have hmterm : terminalStatus m = true := by
    rcases hm with h | h <;> (rw [h]; rfl)
  rcases advanceBank_spec st m with ⟨hb, _⟩ | ⟨cur, hcur, hrest⟩
  · rw [List.getElem?_eq_getElem hInv.idxLt] at hb
    cases hb
  · have hbal : nontermCount
        (st.bank.set st.bankIndex { cur with status := m }) + 1 =
        nontermCount st.bank :=
      nontermCount_set_toTerminal hcur (hInv.curNonterm cur hcur) hmterm
    have hnorating : ∀ (j : Nat) (s : BankSlot),
        (st.bank.set st.bankIndex { cur with status := m })[j]? = some s →
        s.status ≠ Status.rating := by
      intro j s hs hrating
      rcases getElem?_set_cases hs with ⟨_, hbeq⟩ | ⟨hj, hj'⟩
      · rw [hbeq] at hrating
        have hmr : m = Status.rating := hrating
        rcases hm with h | h <;> (rw [h] at hmr; cases hmr)
      · exact hj (hInv.ratingCur j s hj' hrating)
    rcases hrest with ⟨next, hfind, hbank, hidx, hflag, hgen⟩ |
      ⟨hfind, hbank, hidx, hflag, hgen⟩
    · refine Or.inr ⟨hflag, ?_, ⟨?_, ?_, ?_, by rw [hgen]; exact hInv.genId⟩, ?_⟩
      · rcases findNextUnfinished_some hfind with ⟨s, hs, hunf⟩
        have hp : (! terminalStatus s.status) = true := by
          rcases hunf with h | h <;> (rw [h]; rfl)
        have hpos : 0 < nontermCount
            (st.bank.set st.bankIndex { cur with status := m }) :=
          countP_pos_of_getElem? hs hp
        omega
      · rw [hbank, hidx]
        rcases findNextUnfinished_some hfind with ⟨s, hs, _⟩
        rw [List.length_set]
        have := (List.getElem?_eq_some_iff.mp hs).1
        rw [List.length_set] at this
        exact this
      · intro s hs
        rw [hbank, hidx] at hs
        rcases findNextUnfinished_some hfind with ⟨s', hs', hunf⟩
        rw [hs'] at hs
        cases hs
        rcases hunf with h | h <;> (rw [h]; rfl)
      · intro j s hs hrating
        exfalso
        rw [hbank] at hs
        exact hnorating j s hs hrating
      · rw [hbank]
        omega
    · refine Or.inl ⟨hflag, ?_⟩
      have hzero : nontermCount
          (st.bank.set st.bankIndex { cur with status := m }) = 0 := by
        unfold nontermCount
        rw [List.countP_eq_zero]
        intro a ha
        rcases List.mem_iff_getElem?.mp ha with ⟨j, hj⟩
        have hnone := (findNextUnfinished_eq_none_iff _ _).mp hfind j
        unfold unfinishedAt at hnone
        rw [hj] at hnone
        dsimp only at hnone
        intro hp
        have hnr := hnorating j a hj
        rcases hstat : a.status with _ | _ | _ | _ | _ | _
        · rw [hstat] at hnone
          simp at hnone
        · rw [hstat] at hnone
          simp at hnone
        · exact hnr hstat
        · rw [hstat] at hp
          cases hp
        · rw [hstat] at hp
          cases hp
        · rw [hstat] at hp
          cases hp
      omega

/-- A trace without advance events never triggers a new batch. -/
theorem triggerCount_eq_zero_of_no_advance (tr : List Event) :
    ∀ st : PageState, advCount tr = 0 → triggerCount st tr = 0 := by
  induction tr with
  | nil => intro st _; rfl
  | cons e tr ih =>
      intro st hadv
      cases e
      case advanceEv m =>
          exact absurd hadv (by show ¬ (advCount tr + 1 = 0); omega)
      all_goals
        exact (congrArg (fun n => 0 + n) (ih _ hadv)).trans (Nat.zero_add 0)

/-- C6 main induction: under the invariant, running a scenario trace with
at most as many advances as non-terminal slots triggers exactly one new
batch when the advances use them all up, and none otherwise. -/
theorem c6_main (t0 : Nat) (tr : List Event) : ∀ st : PageState,
    C6Inv t0 st → (∀ e ∈ tr, c6Event t0 e = true) →
    advCount tr ≤ nontermCount st.bank →
    triggerCount st tr =
      if advCount tr = nontermCount st.bank then 1 else 0 := by
  induction tr with
  | nil =>
      intro st hInv _ _
      have h1 := hInv.nonterm_pos
      rw [show advCount [] = 0 from rfl]
      rw [if_neg (by omega)]
      rfl
  | cons e tr ih =>
      intro st hInv hev hle
      have hev_e := hev e (List.mem_cons_self e tr)
      have hev_tr : ∀ e' ∈ tr, c6Event t0 e' = true :=
        fun e' he' => hev e' (List.mem_cons_of_mem e he')
      have hk1 := hInv.nonterm_pos
      cases e with
      | resolveOk i g d =>
          have hg : g = t0 := by
            have hb : (g == t0) = true := hev_e
            exact beq_iff_eq.mp hb
          subst hg
          rcases c6_step_resolveOk g st i d hInv with ⟨hInv', hcount⟩
          have hadv : advCount (Event.resolveOk i g d :: tr) = advCount tr := rfl
          have htrig : triggerCount st (Event.resolveOk i g d :: tr) =
              triggerCount (step st (Event.resolveOk i g d)) tr :=
            Nat.zero_add _
          rw [hadv, htrig]
          have hres := ih (step st (Event.resolveOk i g d)) hInv' hev_tr
            (by rw [show (step st (Event.resolveOk i g d)).bank =
                (onPregenSuccess st i g d).bank from rfl, hcount]
                rw [hadv] at hle
                exact hle)
          rw [hres]
          rw [show (step st (Event.resolveOk i g d)).bank =
            (onPregenSuccess st i g d).bank from rfl, hcount]
      | resolveErr i g =>
          exfalso
          simp [c6Event] at hev_e
      | reconcileEv =>
          rcases c6_step_reconcile t0 st hInv with ⟨hInv', hcount⟩
          have hadv : advCount (Event.reconcileEv :: tr) = advCount tr := rfl
          have htrig : triggerCount st (Event.reconcileEv :: tr) =
              triggerCount (step st Event.reconcileEv) tr :=
            Nat.zero_add _
          rw [hadv, htrig]
          have hres := ih (step st Event.reconcileEv) hInv' hev_tr
            (by rw [show (step st Event.reconcileEv).bank =
                (reconcile st).bank from rfl, hcount]
                rw [hadv] at hle
                exact hle)
          rw [hres]
          rw [show (step st Event.reconcileEv).bank =
            (reconcile st).bank from rfl, hcount]
      | advanceEv m =>
          have hm : m = Status.rated ∨ m = Status.skipped := by
            have hb : (m == Status.rated || m == Status.skipped) = true := hev_e
            cases m
            case rated => exact Or.inl rfl
            case skipped => exact Or.inr rfl
            all_goals exact absurd hb (by decide)
          have hadv : advCount (Event.advanceEv m :: tr) = advCount tr + 1 := rfl
          rw [hadv] at hle ⊢
          rcases c6_step_advance t0 st m hInv hm with ⟨htr, hone⟩ |
            ⟨hfl, htwo, hInv', hcount⟩
          · have hadv0 : advCount tr = 0 := by omega
            have htrig : triggerCount st (Event.advanceEv m :: tr) =
                1 + triggerCount (step st (Event.advanceEv m)) tr := by
              show (if (advanceBank st m).2 then 1 else 0) +
                triggerCount (step st (Event.advanceEv m)) tr = _
              rw [htr]
              rfl
            rw [htrig,
              triggerCount_eq_zero_of_no_advance tr _ hadv0, hone,
              if_pos (by omega)]
          · have htrig : triggerCount st (Event.advanceEv m :: tr) =
                triggerCount (step st (Event.advanceEv m)) tr := by
              show (if (advanceBank st m).2 then 1 else 0) +
                triggerCount (step st (Event.advanceEv m)) tr = _
              rw [hfl]
              exact Nat.zero_add _
            rw [htrig]
            have hres := ih (step st (Event.advanceEv m)) hInv' hev_tr
              (by rw [show (step st (Event.advanceEv m)).bank =
                  (advanceBank st m).1.bank from rfl, hcount]
                  omega)
            rw [hres]
            rw [show (step st (Event.advanceEv m)).bank =
              (advanceBank st m).1.bank from rfl, hcount]
            by_cases hc : advCount tr + 1 = nontermCount st.bank
            · rw [if_pos hc, if_pos (by omega)]
            · rw [if_neg hc, if_neg (by omega)]
      | batchFetched g f =>
          exfalso
          simp [c6Event] at hev_e
      | submitEv now u p =>
          rcases c6_step_submit t0 st now u p hInv with ⟨hInv', hcount⟩
          have hadv : advCount (Event.submitEv now u p :: tr) = advCount tr := rfl
          have htrig : triggerCount st (Event.submitEv now u p :: tr) =
              triggerCount (step st (Event.submitEv now u p)) tr :=
            Nat.zero_add _
          rw [hadv, htrig]
          have hres := ih (step st (Event.submitEv now u p)) hInv' hev_tr
            (by rw [show (step st (Event.submitEv now u p)).bank =
                (submitScoreAndNext st now u p).1.bank from rfl, hcount]
                rw [hadv] at hle
                exact hle)
          rw [hres]
          rw [show (step st (Event.submitEv now u p)).bank =
            (submitScoreAndNext st now u p).1.bank from rfl, hcount]

/-- C6: starting from a bank of N all-`generating` slots (current index
0), along any scenario trace — successful resolutions of this bank's own
calls in any order, apply-effect runs, submits, and user advances marking
`rated` or `skipped` — with at most N advances: if the user advances
(rates or skips) all N slots, `generateNewBatch` is invoked exactly once,
by the final advance; any shorter prefix triggers none. -/
theorem c6_exactly_one_replacement (st0 : PageState) (tr : List Event)
    (hgen : ∀ s ∈ st0.bank, s.status = Status.generating)
    (hidx : st0.bankIndex = 0) (hlen : 0 < st0.bank.length)
    (hev : ∀ e ∈ tr, c6Event st0.batchGenId e = true)
    (hadv : advCount tr ≤ st0.bank.length) :
    triggerCount st0 tr =
      if advCount tr = st0.bank.length then 1 else 0 := by
  have hcount : nontermCount st0.bank = st0.bank.length := by
    unfold nontermCount
    rw [List.countP_eq_length]
    intro a ha
    rw [hgen a ha]
    rfl
  have hInv : C6Inv st0.batchGenId st0 := by
    refine ⟨?_, ?_, ?_, rfl⟩
    · rw [hidx]
      exact hlen
    · intro s hs
      have := hgen s (List.mem_iff_getElem?.mpr ⟨st0.bankIndex, hs⟩)
      rw [this]
      rfl
    · intro i s hs hrating
      have := hgen s (List.mem_iff_getElem?.mpr ⟨i, hs⟩)
      rw [this] at hrating
      cases hrating
  rw [← hcount]
  exact c6_main st0.batchGenId tr st0 hInv hev (by omega)

/-- The C6 witness trace: resolve, apply, rate on a one-slot bank. -/
def trC6 : List Event :=
  [Event.resolveOk 0 1 sampleData, Event.reconcileEv,
    Event.advanceEv Status.rated]

/-- C6 witness: on the concrete one-slot bank, the single advance (after
its resolution and apply) triggers exactly one new batch. -/
theorem c6_exactly_one_replacement_witness :
    triggerCount stBank1 trC6 = 1 :=
  (c6_exactly_one_replacement stBank1 trC6 (by decide) (by decide)
    (by decide) (by decide) (by decide)).trans (by decide)

end Illugen
